import Mathlib

/-
Verification of the comfyui-loadheicimage extension.

The development shallowly embeds the two source files of the repository:

  src/__init__.py : the /heic_preview HTTP route and its one-time
                    route-installation guard (_register_preview_route);
  src/nodes.py    : path helpers (_is_heic_path), the LoadImagePlusHEIC node
                    (load_image, IS_CHANGED, VALIDATE_INPUTS) and the second,
                    identical copy of the preview route installer
                    (_register_preview_route_if_possible) and handler.

External library behaviour (PIL decoding, aiohttp, hashlib, torch) is modelled
at the call boundary: decoded frames, decode results and the SHA-256
compression function are parameters or explicit data, while every branch,
comparison and message built by the repository code itself is translated
literally.  Machine floats from numpy/torch are modelled as rationals: the
only arithmetic the code performs on them is division by 255 and subtraction
from 1, which is exact.
-/

deriving instance DecidableEq for Except

namespace LoadHEIC

/-- Model of the aiohttp web.Response values the preview handler builds: a
status code, an optional text payload, an optional byte body and an optional
explicit content type (only set for the PNG success response). -/
structure Response where
  status : Nat
  text : Option String
  body : Option (List Nat)
  contentType : Option String
deriving DecidableEq

/-- Environment of the preview handler, over an abstract type P of PIL
images.  files models folder_paths: a filename is listed exactly when
exists_annotated_filepath holds, and its entry is the result of Image.open on
get_annotated_filepath.  exifTranspose, convertRGBA and savePNG model the PIL
calls ImageOps.exif_transpose, Image.convert RGBA and Image.save PNG; the
first two may raise, which the try block of the handler catches. -/
structure PreviewEnv (P : Type) where
  files : List (String × Except String P)
  exifTranspose : P → Except String P
  convertRGBA : P → Except String P
  savePNG : P → List Nat

/-- Body of the try block of the preview handler: Image.open (already forced
by the lookup result), then ImageOps.exif_transpose, then convert RGBA.  Any
failure is the exception the handler turns into a 500 response. -/
def previewDecode {P : Type} (env : PreviewEnv P) (r : Except String P) :
    Except String P := do
  let i ← r
  let i2 ← env.exifTranspose i
  env.convertRGBA i2

/-- The async handler heic_preview of src/__init__.py lines 31-52 (the copy in
src/nodes.py lines 28-48 is line-for-line identical).  A missing query
parameter arrives as none; Python's falsiness test `if not filename` also
catches the present-but-empty string, hence the explicit empty test. -/
def heic_preview {P : Type} (env : PreviewEnv P) (filename : Option String) :
    Response :=
  match filename with
  | none => ⟨400, some "filename is required", none, none⟩
  | some fn =>
    if fn = "" then ⟨400, some "filename is required", none, none⟩
    else
      match env.files.lookup fn with
      | none => ⟨404, some "file not found", none, none⟩
      | some openRes =>
        match previewDecode env openRes with
        | .error e => ⟨500, some ("failed to decode image: " ++ e), none, none⟩
        | .ok img => ⟨200, none, some (env.savePNG img), some "image/png"⟩

/-- HEIC_EXTS of src/nodes.py line 10. -/
def HEIC_EXTS : List String := [".heic", ".heif"]

/-- ASCII lowercasing of one character, the only case str.lower needs on the
extensions compared here. -/
def asciiLower (c : Char) : Char :=
  if 'A' ≤ c ∧ c ≤ 'Z' then Char.ofNat (c.toNat + 32) else c

/-- Characters of the basename of a POSIX path: everything after the last
path separator. -/
def baseNameChars (cs : List Char) : List Char :=
  cs.foldl (fun acc c => if c == '/' then [] else acc ++ [c]) []

/-- Extension part of os.path.splitext on a basename: the suffix starting at
its last dot, except that a basename whose characters before that dot are all
dots (a leading-dot file such as .bashrc) has no extension. -/
def splitextExtChars (base : List Char) : List Char :=
  let rcs := base.reverse
  match rcs.findIdx? (· == '.') with
  | none => []
  | some j =>
    if (rcs.drop (j + 1)).any (· != '.') then (rcs.take (j + 1)).reverse
    else []

/-- The helper _is_heic_path of src/nodes.py lines 76-78: lowercased splitext
extension tested against HEIC_EXTS. -/
def _is_heic_path (name : String) : Bool :=
  HEIC_EXTS.contains
    (String.mk ((splitextExtChars (baseNameChars name.toList)).map asciiLower))

example : _is_heic_path "photo.HEIC" = true := by decide
example : _is_heic_path "dir/a.b.heif" = true := by decide
example : _is_heic_path "photo.png" = false := by decide
example : _is_heic_path ".heic" = false := by decide

/-- One frame as the loop body of load_image sees it, after
ImageSequence.Iterator and node_helpers.pillow(ImageOps.exif_transpose, i)
have produced it.  mode, width, height and bands are the PIL attributes the
code inspects; rgb is the pixel grid of i.convert(RGB) (for mode I the
preceding point scaling is already folded into this grid, since the code
reads no other value of the scaled image); alpha is the byte grid of
i.getchannel(A), meaningful when bands contains A; transparency models
whether info carries a transparency key; rgbaAlpha is the alpha byte grid of
i.convert(RGBA), read on the palette-with-transparency branch. -/
structure PILFrame where
  mode : String
  width : Nat
  height : Nat
  rgb : List (List (Nat × Nat × Nat))
  bands : List String
  alpha : List (List Nat)
  transparency : Bool
  rgbaAlpha : List (List Nat)
deriving DecidableEq

/-- Well-formedness of a frame: the pixel grid, and each alpha grid the code
may read, have the height × width extent PIL guarantees for np.array of an
image of that size. -/
def PILFrame.WF (f : PILFrame) : Prop :=
  f.rgb.length = f.height ∧ (∀ r ∈ f.rgb, r.length = f.width) ∧
  (f.bands.contains "A" = true →
    f.alpha.length = f.height ∧ ∀ r ∈ f.alpha, r.length = f.width) ∧
  (f.mode = "P" ∧ f.transparency = true →
    f.rgbaAlpha.length = f.height ∧ ∀ r ∈ f.rgbaAlpha, r.length = f.width)

instance (f : PILFrame) : Decidable f.WF := by
  unfold PILFrame.WF; infer_instance

/-- A frame carries alpha information exactly when the loop of load_image
derives its mask from an alpha channel: its bands contain A, or it is a
palette image whose info carries transparency (whose RGBA conversion then has
an alpha channel). -/
def frameHasAlpha (f : PILFrame) : Bool :=
  f.bands.contains "A" || (f.mode == "P" && f.transparency)

/-- A PIL image as load_image sees it: the container format attribute (None
when PIL reports none) and the frame sequence the iterator yields. -/
structure PILImage where
  format : Option String
  frames : List PILFrame
deriving DecidableEq

/-- Pixel tensor of one frame, src/nodes.py line 188: np.array of the RGB
image as float32 divided by 255, exact in ℚ.  The batch dimension added by
[None,] is modelled by list position in the output batch. -/
def frameImageTensor (f : PILFrame) : List (List (ℚ × ℚ × ℚ)) :=
  f.rgb.map fun row =>
    row.map fun p => ((p.1 : ℚ) / 255, (p.2.1 : ℚ) / 255, (p.2.2 : ℚ) / 255)

/-- The default mask, src/nodes.py line 200: torch.zeros((64, 64)). -/
def zeroMask : List (List ℚ) := List.replicate 64 (List.replicate 64 0)

/-- Mask of one frame, src/nodes.py lines 191-200: 1 minus the normalized
alpha channel when the frame has an A band, the same on the RGBA conversion
when it is a palette image carrying transparency info, otherwise the 64 × 64
zero mask. -/
def frameMask (f : PILFrame) : List (List ℚ) :=
  if f.bands.contains "A" then
    f.alpha.map fun row => row.map fun a => 1 - (a : ℚ) / 255
  else if f.mode == "P" && f.transparency then
    f.rgbaAlpha.map fun row => row.map fun a => 1 - (a : ℚ) / 255
  else zeroMask

/-- Frame-selection logic of the loop, src/nodes.py lines 181-186: the first
frame fixes w and h, and every later frame whose size differs is skipped by
the continue statement. -/
def keepFrames : List PILFrame → List PILFrame
  | [] => []
  | f :: rest => f :: rest.filter fun g => g.width == f.width && g.height == f.height

/-- excluded_formats of src/nodes.py line 172. -/
def excluded_formats : List String := ["MPO"]

/-- Test getattr(img, format, None) not in excluded_formats, negated: a
missing format attribute is never excluded. -/
def formatExcluded : Option String → Bool
  | none => false
  | some f => excluded_formats.contains f

/-- Frames whose tensors end up in the returned batches, src/nodes.py lines
208-213: all kept frames when there are several and the container format is
not excluded, otherwise only the first kept frame. -/
def keptOf (img : PILImage) : List PILFrame :=
  match keepFrames img.frames with
  | [] => []
  | k :: ks =>
    if (k :: ks).length > 1 && !formatExcluded img.format then k :: ks
    else [k]

/-- Exception classes load_image raises. -/
inductive LoadErr where
  | runtimeError (msg : String)
  | fileNotFoundError (msg : String)
deriving DecidableEq

/-- Environment of load_image: whether _try_register_heif_opener succeeds
(pillow-heif importable), and the input directory as seen through
folder_paths: a filename is listed exactly when exists_annotated_filepath
holds, and its entry is the result of Image.open on its annotated path. -/
structure LoadEnv where
  heifAvailable : Bool
  files : List (String × Except String PILImage)

/-- Message of the RuntimeError at src/nodes.py lines 145-147. -/
def heicUnavailableMsg : String :=
  "HEIC/HEIF support is not available. Install dependency: pip install pillow-heif"

/-- LoadImagePlusHEIC.load_image, src/nodes.py lines 143-215.  Output batches
are lists of per-frame tensors; list length is the torch batch dimension
(torch.cat over the [None,]-prefixed frame tensors, or a single first
element).  The requirement of torch.cat that mask extents agree is not
modelled; no claim touches it. -/
def load_image (env : LoadEnv) (image : String) :
    Except LoadErr (List (List (List (ℚ × ℚ × ℚ))) × List (List (List ℚ))) :=
  if _is_heic_path image && !env.heifAvailable then
    .error (.runtimeError heicUnavailableMsg)
  else
    match env.files.lookup image with
    | none => .error (.fileNotFoundError ("Image not found in input path: " ++ image))
    | some (.error e) =>
      if _is_heic_path image then
        .error (.runtimeError
          ("Failed to open HEIC/HEIF image. Ensure pillow-heif is installed: pip install pillow-heif\nFile: "
            ++ image ++ "\nError: " ++ e))
      else
        .error (.runtimeError ("Failed to open image: " ++ image ++ "\nError: " ++ e))
    | some (.ok img) =>
      match keptOf img with
      | [] => .error (.runtimeError ("No frames could be decoded from image: " ++ image))
      | ks => .ok (ks.map frameImageTensor, ks.map frameMask)

/-- Result type of VALIDATE_INPUTS: the Python method returns True or an
error string. -/
inductive ValidateRes where
  | ok
  | err (msg : String)
deriving DecidableEq

/-- LoadImagePlusHEIC.VALIDATE_INPUTS, src/nodes.py lines 227-232. -/
def VALIDATE_INPUTS (env : LoadEnv) (image : String) : ValidateRes :=
  match env.files.lookup image with
  | none => .err ("Invalid image file: " ++ image)
  | some _ => .ok

/-- Successive chunks of f.read(n) on a file holding the byte list l: chunks
of n bytes until the remainder is shorter, then the remainder, stopping at
the empty read.  For a nonempty list the step drops n = (n - 1) + 1 elements,
written via the tail so the recursion terminates for every n. -/
def chunksOf (n : Nat) : List Nat → List (List Nat)
  | [] => []
  | x :: xs => (x :: xs).take n :: chunksOf n (xs.drop (n - 1))
termination_by l => l.length
decreasing_by simp [List.length_drop]; omega

/-- State of the incremental hashlib object: m.update appends the chunk to
the byte stream absorbed so far, and the digest is a function of that
stream.  The loop of IS_CHANGED folds update over the chunks starting from
the fresh hasher. -/
def shaAbsorb (chunks : List (List Nat)) : List Nat :=
  chunks.foldl (fun s c => s ++ c) []

/-- LoadImagePlusHEIC.IS_CHANGED, src/nodes.py lines 217-225, over an
abstract SHA-256 hex-digest function sha applied to the absorbed byte
stream.  fileBytes maps each annotated filename to the byte contents of its
file; a filename whose file cannot be opened yields none (the Python open
would raise). -/
def IS_CHANGED (sha : List Nat → String) (fileBytes : List (String × List Nat))
    (image : String) : Option String :=
  (fileBytes.lookup image).map fun bytes =>
    sha (shaAbsorb (chunksOf 1048576 bytes))

/-- State of the PromptServer instance as the route installers see it:
whether it exposes a routes table, the _heic_preview_route_registered flag
(getattr default False) and the installed route paths. -/
structure ServerState where
  hasRoutes : Bool
  registered : Bool
  routes : List String
deriving DecidableEq

/-- The function _register_preview_route of src/__init__.py lines 9-56: no-op
when there is no server instance or it has no routes table or the flag is
already set; otherwise it sets the flag and installs the /heic_preview
route. -/
def _register_preview_route : Option ServerState → Option ServerState
  | none => none
  | some s =>
    if !s.hasRoutes then some s
    else if s.registered then some s
    else some { s with registered := true, routes := s.routes ++ ["/heic_preview"] }

/-- The function _register_preview_route_if_possible of src/nodes.py lines
13-50, whose guard and installation logic is line-for-line the same as
_register_preview_route. -/
def _register_preview_route_if_possible : Option ServerState → Option ServerState
  | none => none
  | some s =>
    if !s.hasRoutes then some s
    else if s.registered then some s
    else some { s with registered := true, routes := s.routes ++ ["/heic_preview"] }

/-- Interleaving of calls to the two installers during one process: true
selects _register_preview_route, false selects
_register_preview_route_if_possible. -/
def applyCalls : List Bool → Option ServerState → Option ServerState
  | [], s => s
  | b :: bs, s =>
    applyCalls bs
      (if b then _register_preview_route s else _register_preview_route_if_possible s)

/-- Number of installed copies of the /heic_preview route. -/
def routeCount : Option ServerState → Nat
  | none => 0
  | some s => s.routes.count "/heic_preview"

/-- Discriminator for the FileNotFoundError outcome of load_image. -/
def isFileNotFound {α : Type} : Except LoadErr α → Bool
  | .error (.fileNotFoundError _) => true
  | _ => false

/-- Invariant maintained by the route installers: an unset flag means the
route is absent, and the route is installed at most once. -/
def regInv : Option ServerState → Prop
  | none => True
  | some s =>
    (s.registered = false → s.routes.count "/heic_preview" = 0) ∧
    s.routes.count "/heic_preview" ≤ 1

/-- Concrete preview environment exercising the four handler outcomes. -/
def previewEnvW : PreviewEnv Nat where
  files := [("bad.png", .error "boom"), ("good.heic", .ok 5)]
  exifTranspose := fun i => .ok (i + 1)
  convertRGBA := fun i => .ok (2 * i)
  savePNG := fun i => [i]

/-- Concrete 1 × 2 opaque RGB frame. -/
def frameOpaque : PILFrame :=
  ⟨"RGB", 2, 1, [[(10, 20, 30), (40, 50, 60)]], ["R", "G", "B"], [], false, []⟩

/-- Second concrete 1 × 2 opaque RGB frame. -/
def frameOpaque2 : PILFrame :=
  ⟨"RGB", 2, 1, [[(0, 0, 0), (255, 255, 255)]], ["R", "G", "B"], [], false, []⟩

/-- Concrete 2 × 3 frame whose size differs from frameOpaque. -/
def frameMismatch : PILFrame :=
  ⟨"RGB", 3, 2, [[(1, 1, 1), (2, 2, 2), (3, 3, 3)], [(4, 4, 4), (5, 5, 5), (6, 6, 6)]],
    ["R", "G", "B"], [], false, []⟩

/-- Concrete 1 × 1 RGBA frame with alpha byte 51. -/
def frameAlpha : PILFrame :=
  ⟨"RGBA", 1, 1, [[(10, 20, 30)]], ["R", "G", "B", "A"], [[51]], false, []⟩

/-- Concrete single-frame opaque image. -/
def imgSingle : PILImage := ⟨some "PNG", [frameOpaque]⟩

/-- Concrete two-frame animated image with equal frame sizes. -/
def imgAnim : PILImage := ⟨some "GIF", [frameOpaque, frameOpaque2]⟩

/-- Concrete two-frame image whose container format is MPO. -/
def imgMPO : PILImage := ⟨some "MPO", [frameOpaque, frameOpaque2]⟩

/-- Concrete three-frame image whose middle frame has a different size. -/
def imgMixed : PILImage := ⟨some "GIF", [frameOpaque, frameMismatch, frameOpaque2]⟩

/-- Concrete single-frame image with an alpha channel. -/
def imgAlpha : PILImage := ⟨some "PNG", [frameAlpha]⟩

/-- Concrete load environment with the codec available and one file per
fixture image. -/
def loadEnvW : LoadEnv :=
  ⟨true,
    [("a.png", .ok imgSingle), ("anim.gif", .ok imgAnim), ("multi.jpg", .ok imgMPO),
      ("mixed.gif", .ok imgMixed), ("al.png", .ok imgAlpha)]⟩

/-- Concrete load environment with the codec unavailable and no files. -/
def envNoHeif : LoadEnv := ⟨false, []⟩

/-- Concrete stand-in for the hex-digest function: a string whose length is
the byte count, enough to distinguish the witness inputs. -/
def shaLen (bytes : List Nat) : String :=
  String.mk (List.replicate bytes.length 'x')

instance decEqImgBatch : DecidableEq (List (List (List (ℚ × ℚ × ℚ)))) :=
  inferInstance

instance decEqMaskBatch : DecidableEq (List (List (List ℚ))) :=
  inferInstance

instance decEqLoadOut :
    DecidableEq (List (List (List (ℚ × ℚ × ℚ))) × List (List (List ℚ))) :=
  instDecidableEqProd

instance decEqLoadRes :
    DecidableEq (Except LoadErr (List (List (List (ℚ × ℚ × ℚ))) × List (List (List ℚ)))) :=
  inferInstance

/-- Folding the append step of the hasher over a chunk list from any starting
state absorbs the concatenation of the chunks. -/
theorem foldl_append_eq_join (cs : List (List Nat)) :
    ∀ init : List Nat, cs.foldl (fun s c => s ++ c) init = init ++ cs.flatten := by
  induction cs with
  | nil => intro init; simp
  | cons c cs ih => intro init; simp [ih, List.append_assoc]

/-- Reading a file in chunks of any positive size and concatenating the reads
reproduces the file. -/
theorem chunksOf_join (n : Nat) (hn : 1 ≤ n) :
    ∀ (k : Nat) (l : List Nat), l.length ≤ k → (chunksOf n l).flatten = l := by
  intro k
  induction k with
  | zero =>
    intro l hl
    have hnil : l = [] := List.eq_nil_of_length_eq_zero (Nat.le_zero.mp hl)
    subst hnil
    simp [chunksOf]
  | succ k ih =>
    intro l hl
    match l with
    | [] => simp [chunksOf]
    | x :: xs =>
      rw [chunksOf, List.flatten_cons,
        ih (xs.drop (n - 1)) (by simp only [List.length_drop]; simp at hl; omega)]
      obtain ⟨m, rfl⟩ : ∃ m, n = m + 1 := ⟨n - 1, by omega⟩
      simp [List.take_append_drop]

/-- The hasher loop of IS_CHANGED absorbs exactly the whole file. -/
theorem shaAbsorb_chunks (bytes : List Nat) :
    shaAbsorb (chunksOf 1048576 bytes) = bytes := by
  unfold shaAbsorb
  rw [foldl_append_eq_join, chunksOf_join 1048576 (by omega) bytes.length bytes le_rfl]
  simp

/-- C1: the preview endpoint returns 400 when the filename parameter is
absent, 404 when the named file does not exist in the managed upload
directory, 500 with the error text in the body when decoding fails, and
otherwise 200 with content type image/png and the PNG encoding of the
EXIF-corrected RGBA-converted source image as body.  The nonempty hypotheses
on the present filenames reflect that an empty parameter names no file (the
handler folds it into the Python falsiness test for the missing
parameter). -/
theorem heic_preview_responses {P : Type} (env : PreviewEnv P)
    (fnA fnB fnC : String) (rB : Except String P) (e : String) (i i2 i3 : P)
    (hA0 : fnA ≠ "") (hA : env.files.lookup fnA = none)
    (hB0 : fnB ≠ "") (hB : env.files.lookup fnB = some rB)
    (hBe : previewDecode env rB = .error e)
    (hC0 : fnC ≠ "") (hC : env.files.lookup fnC = some (.ok i))
    (hCt : env.exifTranspose i = .ok i2) (hCc : env.convertRGBA i2 = .ok i3) :
    heic_preview env none = ⟨400, some "filename is required", none, none⟩ ∧
    heic_preview env (some fnA) = ⟨404, some "file not found", none, none⟩ ∧
    heic_preview env (some fnB) =
      ⟨500, some ("failed to decode image: " ++ e), none, none⟩ ∧
    heic_preview env (some fnC) =
      ⟨200, none, some (env.savePNG i3), some "image/png"⟩ := by
  refine ⟨rfl, ?_, ?_, ?_⟩
  · simp [heic_preview, hA0, hA]
  · simp [heic_preview, hB0, hB, hBe]
  · have hpd : previewDecode env (.ok i) = .ok i3 := by
      simp [previewDecode, Except.instMonad, Except.bind, hCt, hCc]
    simp [heic_preview, hC0, hC, hpd]

/-- Witness for heic_preview_responses on the concrete environment
previewEnvW. -/
theorem heic_preview_responses_witness :
    heic_preview previewEnvW none = ⟨400, some "filename is required", none, none⟩ ∧
    heic_preview previewEnvW (some "nope.png") =
      ⟨404, some "file not found", none, none⟩ ∧
    heic_preview previewEnvW (some "bad.png") =
      ⟨500, some ("failed to decode image: " ++ "boom"), none, none⟩ ∧
    heic_preview previewEnvW (some "good.heic") =
      ⟨200, none, some (previewEnvW.savePNG 12), some "image/png"⟩ :=
  heic_preview_responses previewEnvW "nope.png" "bad.png" "good.heic"
    (.error "boom") "boom" 5 6 12
    (by decide) (by decide) (by decide) (by decide) (by decide) (by decide)
    (by decide) (by decide) (by decide)

/-- C6: IS_CHANGED returns the hexadecimal SHA-256 digest of the complete
byte contents of the referenced file: the chunked feed absorbs exactly the
whole file, so the digest equals the hash of the whole file, computing it
twice on unmodified bytes gives the identical digest, and modified bytes give
a different digest whenever the underlying hash separates the two byte
strings (the collision-freeness assumed of SHA-256, here a property of the
abstract digest parameter). -/
theorem IS_CHANGED_hashes_whole_file (sha : List Nat → String)
    (fb fb' : List (String × List Nat)) (image : String) (bytes bytes' : List Nat)
    (h : fb.lookup image = some bytes) (h' : fb'.lookup image = some bytes')
    (hne : sha bytes' ≠ sha bytes) :
    IS_CHANGED sha fb image = some (sha bytes) ∧
    IS_CHANGED sha fb image = IS_CHANGED sha fb image ∧
    IS_CHANGED sha fb' image ≠ IS_CHANGED sha fb image := by
  have e1 : IS_CHANGED sha fb image = some (sha bytes) := by
    simp [IS_CHANGED, h, shaAbsorb_chunks]
  have e2 : IS_CHANGED sha fb' image = some (sha bytes') := by
    simp [IS_CHANGED, h', shaAbsorb_chunks]
  refine ⟨e1, rfl, ?_⟩
  rw [e1, e2]
  simp [hne]

/-- Witness for IS_CHANGED_hashes_whole_file with a two-byte file modified to
a one-byte file. -/
theorem IS_CHANGED_hashes_whole_file_witness :
    IS_CHANGED shaLen [("a.png", [7, 8])] "a.png" = some (shaLen [7, 8]) ∧
    IS_CHANGED shaLen [("a.png", [7, 8])] "a.png" =
      IS_CHANGED shaLen [("a.png", [7, 8])] "a.png" ∧
    IS_CHANGED shaLen [("a.png", [7])] "a.png" ≠
      IS_CHANGED shaLen [("a.png", [7, 8])] "a.png" :=
  IS_CHANGED_hashes_whole_file shaLen [("a.png", [7, 8])] [("a.png", [7])]
    "a.png" [7, 8] [7] (by decide) (by decide) (by decide)

/-- C7: for a filename with a HEIC/HEIF extension, load_image raises a
RuntimeError when the codec library cannot be registered, and the message
names the missing pillow-heif dependency and instructs its installation (the
infix conjuncts exhibit both phrases inside the message). -/
theorem load_image_heic_unavailable (env : LoadEnv) (image : String)
    (h1 : _is_heic_path image = true) (h2 : env.heifAvailable = false) :
    load_image env image = .error (.runtimeError heicUnavailableMsg) ∧
    "pillow-heif".toList <:+: heicUnavailableMsg.toList ∧
    "pip install".toList <:+: heicUnavailableMsg.toList := by
  refine ⟨?_,
    ⟨"HEIC/HEIF support is not available. Install dependency: pip install ".toList,
      [], by decide⟩,
    ⟨"HEIC/HEIF support is not available. Install dependency: ".toList,
      " pillow-heif".toList, by decide⟩⟩
  simp [load_image, h1, h2]

/-- Witness for load_image_heic_unavailable on a .heic filename with the
codec unavailable. -/
theorem load_image_heic_unavailable_witness :
    load_image envNoHeif "photo.heic" = .error (.runtimeError heicUnavailableMsg) ∧
    "pillow-heif".toList <:+: heicUnavailableMsg.toList ∧
    "pip install".toList <:+: heicUnavailableMsg.toList :=
  load_image_heic_unavailable envNoHeif "photo.heic" (by decide) (by decide)

/-- The returned selection is either all kept frames or just the first one. -/
theorem keptOf_cases (img : PILImage) (k : PILFrame) (ks : List PILFrame)
    (h : keepFrames img.frames = k :: ks) :
    keptOf img = k :: ks ∨ keptOf img = [k] := by
  simp only [keptOf, h]
  split
  · exact .inl rfl
  · exact .inr rfl

/-- Every frame in the returned selection was kept by the loop. -/
theorem keptOf_subset (img : PILImage) :
    ∀ g ∈ keptOf img, g ∈ keepFrames img.frames := by
  intro g hg
  cases hk : keepFrames img.frames with
  | nil => simp only [keptOf, hk] at hg; cases hg
  | cons k ks =>
    simp only [keptOf, hk] at hg
    split at hg
    · exact hg
    · simp at hg
      subst hg
      exact List.mem_cons_self _ _

/-- C2: for a single-frame image carrying no alpha information that
load_image decodes successfully, the pixel batch is one frame of extent
height × width × 3 and the mask batch is the single all-zero 64 × 64 mask. -/
theorem load_image_single_frame_opaque (env : LoadEnv) (image : String)
    (img : PILImage) (f : PILFrame)
    (hguard : (_is_heic_path image && !env.heifAvailable) = false)
    (hlook : env.files.lookup image = some (.ok img))
    (hframes : img.frames = [f])
    (halpha : frameHasAlpha f = false)
    (hWF : f.WF) :
    load_image env image = .ok ([frameImageTensor f], [zeroMask]) ∧
    (frameImageTensor f).length = f.height ∧
    (∀ row ∈ frameImageTensor f, row.length = f.width) ∧
    zeroMask.length = 64 ∧
    (∀ row ∈ zeroMask, row.length = 64 ∧ ∀ v ∈ row, v = 0) := by
  have hkept : keptOf img = [f] := by
    simp [keptOf, keepFrames, hframes]
  have hmask : frameMask f = zeroMask := by
    simp only [frameHasAlpha, Bool.or_eq_false_iff, Bool.and_eq_false_iff] at halpha
    rcases halpha with ⟨h1, h2⟩
    have h2b : (f.mode == "P" && f.transparency) = false := by
      rcases h2 with h2 | h2 <;> simp [h2]
    unfold frameMask
    rw [h1, h2b]
    simp
  refine ⟨?_, ?_, ?_, ?_, ?_⟩
  · simp [load_image, hguard, hlook, hkept, hmask]
  · simp [frameImageTensor, hWF.1]
  · intro row hrow
    simp [frameImageTensor] at hrow
    obtain ⟨r, hr, rfl⟩ := hrow
    simp [hWF.2.1 r hr]
  · simp [zeroMask]
  · intro row hrow
    rw [List.eq_of_mem_replicate hrow]
    exact ⟨by simp, fun v hv => List.eq_of_mem_replicate hv⟩

/-- Witness for load_image_single_frame_opaque on the 1 × 2 opaque fixture. -/
theorem load_image_single_frame_opaque_witness :
    load_image loadEnvW "a.png" = .ok ([frameImageTensor frameOpaque], [zeroMask]) ∧
    (frameImageTensor frameOpaque).length = frameOpaque.height ∧
    (∀ row ∈ frameImageTensor frameOpaque, row.length = frameOpaque.width) ∧
    zeroMask.length = 64 ∧
    (∀ row ∈ zeroMask, row.length = 64 ∧ ∀ v ∈ row, v = 0) :=
  load_image_single_frame_opaque loadEnvW "a.png" imgSingle frameOpaque
    (by decide) (by decide) (by decide) (by decide) (by decide)

/-- C3: a multi-frame image whose frames share one size and whose container
format is not excluded stacks all frames, with batch size the frame count;
an image whose container format is MPO yields a single-frame batch even with
several frames present. -/
theorem load_image_multiframe_stacking (env env2 : LoadEnv) (image image2 : String)
    (img img2 : PILImage) (f f2 : PILFrame) (rest rest2 : List PILFrame)
    (hguard : (_is_heic_path image && !env.heifAvailable) = false)
    (hlook : env.files.lookup image = some (.ok img))
    (hframes : img.frames = f :: rest)
    (hsame : ∀ g ∈ rest, g.width = f.width ∧ g.height = f.height)
    (hfmt : formatExcluded img.format = false)
    (hguard2 : (_is_heic_path image2 && !env2.heifAvailable) = false)
    (hlook2 : env2.files.lookup image2 = some (.ok img2))
    (hframes2 : img2.frames = f2 :: rest2)
    (hfmt2 : img2.format = some "MPO") :
    load_image env image =
      .ok (img.frames.map frameImageTensor, img.frames.map frameMask) ∧
    (img.frames.map frameImageTensor).length = img.frames.length ∧
    (img.frames.map frameMask).length = img.frames.length ∧
    load_image env2 image2 = .ok ([frameImageTensor f2], [frameMask f2]) := by
  have hkeep : keepFrames img.frames = f :: rest := by
    rw [hframes]
    simp only [keepFrames]
    congr 1
    apply List.filter_eq_self.mpr
    intro g hg
    simp [(hsame g hg).1, (hsame g hg).2]
  have hkept : keptOf img = f :: rest := by
    simp only [keptOf, hkeep]
    cases rest with
    | nil => simp
    | cons r rs => simp [hfmt]
  have hkept2 : keptOf img2 = [f2] := by
    have hkeep2 : keepFrames img2.frames =
        f2 :: rest2.filter fun g => g.width == f2.width && g.height == f2.height := by
      rw [hframes2]
      rfl
    simp only [keptOf, hkeep2]
    simp [formatExcluded, hfmt2, excluded_formats]
  refine ⟨?_, by simp, by simp, ?_⟩
  · rw [hframes]
    simp [load_image, hguard, hlook, hkept]
  · simp [load_image, hguard2, hlook2, hkept2]

/-- Witness for load_image_multiframe_stacking on the two-frame GIF and MPO
fixtures. -/
theorem load_image_multiframe_stacking_witness :
    load_image loadEnvW "anim.gif" =
      .ok (imgAnim.frames.map frameImageTensor, imgAnim.frames.map frameMask) ∧
    (imgAnim.frames.map frameImageTensor).length = imgAnim.frames.length ∧
    (imgAnim.frames.map frameMask).length = imgAnim.frames.length ∧
    load_image loadEnvW "multi.jpg" =
      .ok ([frameImageTensor frameOpaque], [frameMask frameOpaque]) :=
  load_image_multiframe_stacking loadEnvW loadEnvW "anim.gif" "multi.jpg"
    imgAnim imgMPO frameOpaque frameOpaque [frameOpaque2] [frameOpaque2]
    (by decide) (by decide) (by decide) (by decide) (by decide)
    (by decide) (by decide) (by decide) (by decide)

/-- C4: a decoded frame with an alpha channel (an A band) gets the mask
1 minus its alpha channel normalized by 255, and load_image returns the
per-frame masks of the frames it keeps. -/
theorem load_image_mask_inverts_alpha (env : LoadEnv) (image : String)
    (img : PILImage) (f : PILFrame)
    (hguard : (_is_heic_path image && !env.heifAvailable) = false)
    (hlook : env.files.lookup image = some (.ok img))
    (hmem : f ∈ keptOf img)
    (hA : f.bands.contains "A" = true) :
    load_image env image =
      .ok ((keptOf img).map frameImageTensor, (keptOf img).map frameMask) ∧
    frameMask f = f.alpha.map fun row => row.map fun a => 1 - (a : ℚ) / 255 := by
  constructor
  · cases hk : keptOf img with
    | nil => rw [hk] at hmem; cases hmem
    | cons k ks => simp [load_image, hguard, hlook, hk]
  · unfold frameMask
    rw [hA]
    simp

/-- Witness for load_image_mask_inverts_alpha on the 1 × 1 RGBA fixture. -/
theorem load_image_mask_inverts_alpha_witness :
    load_image loadEnvW "al.png" =
      .ok ((keptOf imgAlpha).map frameImageTensor, (keptOf imgAlpha).map frameMask) ∧
    frameMask frameAlpha =
      frameAlpha.alpha.map fun row => row.map fun a => 1 - (a : ℚ) / 255 :=
  load_image_mask_inverts_alpha loadEnvW "al.png" imgAlpha frameAlpha
    (by decide) (by decide) (by decide) (by decide)

/-- C5: during multi-frame stacking every frame whose size differs from the
first frame is dropped (a sublist is kept, never a reshaped frame), the kept
frames all share the first frame's width and height, a mismatched frame never
appears among the kept ones, and load_image still succeeds, returning batches
built only from kept frames, whose pixel tensors all share the first frame's
extent. -/
theorem load_image_drops_mismatched (env : LoadEnv) (image : String)
    (img : PILImage) (f : PILFrame) (rest : List PILFrame)
    (hguard : (_is_heic_path image && !env.heifAvailable) = false)
    (hlook : env.files.lookup image = some (.ok img))
    (hframes : img.frames = f :: rest)
    (hWF : ∀ g ∈ img.frames, g.WF) :
    (keepFrames img.frames).Sublist img.frames ∧
    (∀ g ∈ keepFrames img.frames, g.width = f.width ∧ g.height = f.height) ∧
    (∀ g ∈ rest, ¬(g.width = f.width ∧ g.height = f.height) →
      g ∉ keepFrames img.frames) ∧
    load_image env image =
      .ok ((keptOf img).map frameImageTensor, (keptOf img).map frameMask) ∧
    (∀ t ∈ (keptOf img).map frameImageTensor,
      t.length = f.height ∧ ∀ row ∈ t, row.length = f.width) := by
  have hkeep : keepFrames img.frames =
      f :: rest.filter fun g => g.width == f.width && g.height == f.height := by
    rw [hframes]
    rfl
  have hdims : ∀ g ∈ keepFrames img.frames, g.width = f.width ∧ g.height = f.height := by
    intro g hg
    rw [hkeep] at hg
    rcases List.mem_cons.mp hg with h | h
    · subst h; exact ⟨rfl, rfl⟩
    · have hp := List.of_mem_filter h
      simp only [Bool.and_eq_true, beq_iff_eq] at hp
      exact hp
  refine ⟨?_, hdims, ?_, ?_, ?_⟩
  · rw [hkeep, hframes]
    exact List.Sublist.cons₂ f (List.filter_sublist rest)
  · intro g hg hne hmemK
    exact hne (hdims g hmemK)
  · rcases keptOf_cases img f _ hkeep with hc | hc <;>
      simp [load_image, hguard, hlook, hc]
  · intro t ht
    simp only [List.mem_map] at ht
    obtain ⟨g, hgmem, rfl⟩ := ht
    have hgK := keptOf_subset img g hgmem
    have hgF : g ∈ img.frames := by
      rw [hkeep] at hgK
      rw [hframes]
      rcases List.mem_cons.mp hgK with h | h
      · exact h ▸ List.mem_cons_self _ _
      · exact List.mem_cons_of_mem f (List.mem_of_mem_filter h)
    have hgWF := hWF g hgF
    have hgd := hdims g hgK
    constructor
    · simp [frameImageTensor, hgWF.1, hgd.2]
    · intro row hrow
      simp only [frameImageTensor, List.mem_map] at hrow
      obtain ⟨r, hr, rfl⟩ := hrow
      simp [hgWF.2.1 r hr, hgd.1]

/-- Witness for load_image_drops_mismatched on the three-frame fixture whose
middle frame has a different size. -/
theorem load_image_drops_mismatched_witness :
    (keepFrames imgMixed.frames).Sublist imgMixed.frames ∧
    (∀ g ∈ keepFrames imgMixed.frames,
      g.width = frameOpaque.width ∧ g.height = frameOpaque.height) ∧
    (∀ g ∈ [frameMismatch, frameOpaque2],
      ¬(g.width = frameOpaque.width ∧ g.height = frameOpaque.height) →
      g ∉ keepFrames imgMixed.frames) ∧
    load_image loadEnvW "mixed.gif" =
      .ok ((keptOf imgMixed).map frameImageTensor, (keptOf imgMixed).map frameMask) ∧
    (∀ t ∈ (keptOf imgMixed).map frameImageTensor,
      t.length = frameOpaque.height ∧ ∀ row ∈ t, row.length = frameOpaque.width) :=
  load_image_drops_mismatched loadEnvW "mixed.gif" imgMixed frameOpaque
    [frameMismatch, frameOpaque2] (by decide) (by decide) (by decide) (by decide)

/-- C10: every successful call of load_image returns pixel and mask batches
of equal batch size. -/
theorem load_image_batches_paired (env : LoadEnv) (image : String)
    (out : List (List (List (ℚ × ℚ × ℚ))) × List (List (List ℚ)))
    (h : load_image env image = .ok out) :
    out.1.length = out.2.length := by
  unfold load_image at h
  split at h
  · exact absurd h (by simp)
  · split at h
    · exact absurd h (by simp)
    · split at h <;> exact absurd h (by simp)
    · split at h
      · exact absurd h (by simp)
      · rename_i ks _
        injection h with h2
        rw [← h2]
        simp

/-- Witness for load_image_batches_paired on the single-frame fixture. -/
theorem load_image_batches_paired_witness :
    ([frameImageTensor frameOpaque], [frameMask frameOpaque]).1.length =
      ([frameImageTensor frameOpaque], [frameMask frameOpaque]).2.length :=
  load_image_batches_paired loadEnvW "a.png"
    ([frameImageTensor frameOpaque], [frameMask frameOpaque]) (by rfl)

/-- C8 counterexample: for the nonexistent file missing.heic in an
environment where the HEIC codec cannot be registered, load_image raises the
codec RuntimeError, not a FileNotFoundError, because the codec guard runs
before the existence check.  The claim as frozen asserts a file-not-found
error for every nonexistent file reference. -/
theorem load_image_missing_heic_counterexample :
    load_image envNoHeif "missing.heic" = .error (.runtimeError heicUnavailableMsg) ∧
    isFileNotFound (load_image envNoHeif "missing.heic") = false := by
  constructor <;> decide

/-- C8 amended: for every file reference absent from the input directory,
VALIDATE_INPUTS returns the error string naming the file, and, provided the
HEIC-availability guard does not fire first, load_image raises the
FileNotFoundError before any decode is attempted (the environment fixes no
decode result for the file, and the error is derived from the lookup
alone). -/
theorem load_image_missing_file_errors (env : LoadEnv) (image : String)
    (hguard : (_is_heic_path image && !env.heifAvailable) = false)
    (hlook : env.files.lookup image = none) :
    VALIDATE_INPUTS env image = .err ("Invalid image file: " ++ image) ∧
    load_image env image =
      .error (.fileNotFoundError ("Image not found in input path: " ++ image)) := by
  constructor
  · simp [VALIDATE_INPUTS, hlook]
  · simp [load_image, hguard, hlook]

/-- Witness for load_image_missing_file_errors on a missing PNG name. -/
theorem load_image_missing_file_errors_witness :
    VALIDATE_INPUTS envNoHeif "missing.png" =
      .err ("Invalid image file: " ++ "missing.png") ∧
    load_image envNoHeif "missing.png" =
      .error (.fileNotFoundError ("Image not found in input path: " ++ "missing.png")) :=
  load_image_missing_file_errors envNoHeif "missing.png" (by decide) (by decide)

/-- The two route installers compute the same function. -/
theorem routines_agree (o : Option ServerState) :
    _register_preview_route_if_possible o = _register_preview_route o := by
  cases o <;> rfl

/-- One call of the installer preserves the route-count invariant. -/
theorem register_preserves_inv (o : Option ServerState) (h : regInv o) :
    regInv (_register_preview_route o) := by
  cases o with
  | none => exact h
  | some s =>
    obtain ⟨h1, h2⟩ := h
    cases hr : s.hasRoutes with
    | false =>
      simp only [_register_preview_route, hr, Bool.not_false, if_pos]
      exact ⟨h1, h2⟩
    | true =>
      cases hReg : s.registered with
      | true =>
        simp only [_register_preview_route, hr, Bool.not_true, Bool.false_eq_true,
          if_false, hReg, if_pos]
        exact ⟨h1, h2⟩
      | false =>
        have hstep : _register_preview_route (some s) =
            some { s with registered := true,
                          routes := s.routes ++ ["/heic_preview"] } := by
          simp [_register_preview_route, hr, hReg]
        rw [hstep]
        constructor
        · intro hco
          simp at hco
        · show (s.routes ++ ["/heic_preview"]).count "/heic_preview" ≤ 1
          rw [List.count_append, h1 hReg]
          simp

/-- Any interleaving of the two installers preserves the invariant. -/
theorem applyCalls_inv (calls : List Bool) (o : Option ServerState) (h : regInv o) :
    regInv (applyCalls calls o) := by
  induction calls generalizing o with
  | nil => exact h
  | cons b bs ih =>
    have hb : (if b then _register_preview_route o
        else _register_preview_route_if_possible o) = _register_preview_route o := by
      cases b <;> simp [routines_agree]
    simp only [applyCalls, hb]
    exact ih _ (register_preserves_inv o h)

/-- C9: once the one-time flag is set, each of the two installers returns the
server state unchanged, and starting from a state with the flag unset and no
installed copy of the route, any interleaving of calls to the two installers
leaves at most one installed copy of /heic_preview. -/
theorem preview_route_registered_once (s t : ServerState) (calls : List Bool)
    (hreg : s.registered = true) ( _ht : t.registered = false)
    (hc : t.routes.count "/heic_preview" = 0) :
    _register_preview_route (some s) = some s ∧
    _register_preview_route_if_possible (some s) = some s ∧
    routeCount (applyCalls calls (some t)) ≤ 1 := by
  have hfix : _register_preview_route (some s) = some s := by
    cases hr : s.hasRoutes <;> simp [_register_preview_route, hr, hreg]
  refine ⟨hfix, by rw [routines_agree]; exact hfix, ?_⟩
  have hinv : regInv (some t) := by
    simp [regInv, hc]
  have hres := applyCalls_inv calls (some t) hinv
  cases hA : applyCalls calls (some t) with
  | none => simp [routeCount]
  | some u =>
    rw [hA] at hres
    simpa [routeCount] using hres.2

/-- Witness for preview_route_registered_once: a registered state is left
unchanged and three interleaved calls install the route once. -/
theorem preview_route_registered_once_witness :
    _register_preview_route (some ⟨true, true, ["/heic_preview"]⟩) =
      some ⟨true, true, ["/heic_preview"]⟩ ∧
    _register_preview_route_if_possible (some ⟨true, true, ["/heic_preview"]⟩) =
      some ⟨true, true, ["/heic_preview"]⟩ ∧
    routeCount (applyCalls [true, false, true] (some ⟨true, false, []⟩)) ≤ 1 :=
  preview_route_registered_once ⟨true, true, ["/heic_preview"]⟩ ⟨true, false, []⟩
    [true, false, true] (by decide) (by decide) (by decide)

end LoadHEIC
